import Mathlib

/-!
Shallow embedding of the DCF valuation worker (`src/workers/dcf/app.py`).

Real numbers are modelled by `ℚ`.  Python float division raises
`ZeroDivisionError` on a zero denominator, and `flows[-1]` raises
`IndexError` on an empty list; both failure modes are modelled by
`Option` (`none` = the request raises).  `round(x, 2)` is modelled as
round-half-to-even at two decimal places, matching Python's rounding
mode.
-/

namespace DCF

/-- Python division: raises (`none`) exactly on a zero denominator. -/
def pydiv (a b : ℚ) : Option ℚ :=
  if b = 0 then none else some (a / b)

/-- Round-half-to-even to the nearest integer (Python's rounding mode). -/
def roundHalfEven (x : ℚ) : ℤ :=
  let f := ⌊x⌋
  let frac := x - f
  if frac < 1/2 then f
  else if 1/2 < frac then f + 1
  else if f % 2 = 0 then f else f + 1

/-- Python `round(x, 2)`. -/
def round2 (x : ℚ) : ℚ :=
  (roundHalfEven (100 * x) : ℚ) / 100

/-- `_pct`: unit coercion; `none` falls back to the default, a value
greater than 1 is read as a percentage and divided by 100. -/
def pct (x : Option ℚ) (default : ℚ) : ℚ :=
  match x with
  | none => default
  | some v => if v > 1 then v / 100 else v

/-- The scenario override mapping (every field optional), as accepted by
`_scenario_defaults`. -/
structure Overrides where
  revenue0 : Option ℚ := none
  growth : Option ℚ := none
  growth_decay : Option ℚ := none
  ebit_margin : Option ℚ := none
  tax_rate : Option ℚ := none
  reinvestment_rate : Option ℚ := none
  terminal_g : Option ℚ := none
  wacc : Option ℚ := none
  shares_out : Option ℚ := none
  net_debt : Option ℚ := none
  horizon : Option ℤ := none
deriving DecidableEq

/-- The fully-resolved scenario parameter set built by `_scenario_defaults`. -/
structure Params where
  revenue0 : ℚ
  growth : ℚ
  growth_decay : ℚ
  ebit_margin : ℚ
  tax_rate : ℚ
  reinvestment_rate : ℚ
  terminal_g : ℚ
  wacc : ℚ
  shares_out : ℚ
  net_debt : ℚ
  horizon : ℤ
deriving DecidableEq

/-- `_scenario_defaults(overrides, horizon, r)`. -/
def scenario_defaults (o : Overrides) (horizon : ℤ) (r : ℚ) : Params where
  revenue0 := o.revenue0.getD 1000
  growth := pct o.growth (10/100)
  growth_decay := pct o.growth_decay (2/100)
  ebit_margin := pct o.ebit_margin (20/100)
  tax_rate := pct o.tax_rate (21/100)
  reinvestment_rate := pct o.reinvestment_rate (35/100)
  terminal_g := pct o.terminal_g (2/100)
  wacc := pct o.wacc r
  shares_out := o.shares_out.getD 0
  net_debt := o.net_debt.getD 0
  horizon := o.horizon.getD horizon

/-- One row of the projected cash-flow schedule. -/
structure CashFlowRow where
  year : ℕ
  revenue : ℚ
  ebit : ℚ
  nopat : ℚ
  reinvestment : ℚ
  fcf : ℚ
  discountFactor : ℚ
  pv_fcf : ℚ
  cum_pv : ℚ
deriving DecidableEq

/-- `next_growth`: decay the current growth toward `g_terminal` by
`g_decay`, clamped at `g_terminal`. -/
def next_growth (g_terminal g_decay curr : ℚ) : ℚ :=
  if curr > g_terminal then max g_terminal (curr - g_decay)
  else min g_terminal (curr + g_decay)

/-- The Gordon-growth denominator, floored at `1e-6`. -/
def gordonDen (r g : ℚ) : ℚ :=
  max (1/1000000) (r - g)

/-- The projection loop of `_project_cash_flows`: one recursive step per
remaining year.  `fuel` counts the years still to run, `t` is the current
(1-indexed) year.  The discount factor `1.0 / (1.0 + r) ** t` is a Python
division, hence fallible. -/
def projectLoop (g_terminal g_decay margin tax reinv r : ℚ) :
    ℕ → ℕ → ℚ → ℚ → ℚ → Option (List CashFlowRow × ℚ)
  | 0, _, _, _, pv_sum => some ([], pv_sum)
  | fuel + 1, t, rev, g, pv_sum =>
    let rev' := rev * (1 + g)
    let ebit := rev' * margin
    let nopat := ebit * (1 - tax)
    let reinvest := max 0 (nopat * reinv)
    let fcf := nopat - reinvest
    (pydiv 1 ((1 + r) ^ t)).bind fun df =>
      let pv_fcf := fcf * df
      let row : CashFlowRow :=
        { year := t, revenue := rev', ebit := ebit, nopat := nopat
          reinvestment := reinvest, fcf := fcf, discountFactor := df
          pv_fcf := pv_fcf, cum_pv := pv_sum + pv_fcf }
      (projectLoop g_terminal g_decay margin tax reinv r fuel (t + 1) rev'
          (next_growth g_terminal g_decay g) (pv_sum + pv_fcf)).bind
        fun out => some (row :: out.1, out.2)

/-- `_project_cash_flows`: returns `(flows, tv, pv_tv)`, or `none` when the
Python original raises (division by zero, or `flows[-1]` on an empty list). -/
def project_cash_flows (s : Params) : Option (List CashFlowRow × ℚ × ℚ) :=
  (projectLoop s.terminal_g s.growth_decay s.ebit_margin s.tax_rate
      s.reinvestment_rate s.wacc s.horizon.toNat 1 s.revenue0 s.growth 0).bind
    fun out =>
  out.1.getLast?.bind fun last =>
  let nopat_next := last.nopat * (1 + s.terminal_g)
  let fcf_next := nopat_next * (1 - s.reinvestment_rate)
  (pydiv fcf_next (gordonDen s.wacc s.terminal_g)).bind fun tv =>
  (pydiv tv ((1 + s.wacc) ^ s.horizon.toNat)).bind fun pv_tv =>
  some (out.1, tv, pv_tv)

/-- The optional scenarios record of a request. -/
structure Scenarios where
  base : Overrides
  bull : Option Overrides := none
  bear : Option Overrides := none
deriving DecidableEq

/-- A `/dcf` request. -/
structure DcfRequest where
  ticker : String
  horizon : ℤ
  wacc : Option ℚ := none
  scenarios : Option Scenarios := none
deriving DecidableEq

/-- The `assumptions` record of the response. -/
structure Assumptions where
  ticker : String
  horizon : ℤ
  wacc : ℚ
  notes : String
deriving DecidableEq

/-- One sensitivity grid point. -/
structure SensPoint where
  wacc : ℚ
  terminalG : ℚ
  value : ℚ
deriving DecidableEq

/-- The core result of `/dcf` (the `files` artifact list is produced
outside the core, see `dcfFull`). -/
structure DcfResult where
  assumptions : Assumptions
  pvByScenario : List (String × ℚ)
  sensitivity : List SensPoint
  flowsBy : List (String × List CashFlowRow)
deriving DecidableEq

/-- One sensitivity cell: `fcf_next` is fixed before the loop, only the
Gordon denominator and the discount rate vary.  The denominator is at
least `1e-6` and `1 + rr` is at least `106/100`, so neither Python
division can raise here. -/
def sensCell (fcf_next cum_pv : ℚ) (N : ℕ) (w g_i : ℚ) : SensPoint :=
  let g := g_i / 100
  let rr := w / 100
  let tv := fcf_next / gordonDen rr g
  let pv_tv := tv / (1 + rr) ^ N
  { wacc := w, terminalG := g_i, value := round2 (cum_pv + pv_tv) }

/-- The sensitivity block of `dcf`: `nopat_next` and `fcf_next` are
computed once from the base scenario's last row and terminal growth. -/
def sensitivityFor (nopatLast reinv base_g cum_pv : ℚ) (N : ℕ) :
    List SensPoint :=
  let nopat_next := nopatLast * (1 + base_g)
  let fcf_next := nopat_next * (1 - reinv)
  ([6, 7, 8, 9, 10, 11, 12] : List ℚ).flatMap fun w =>
    ([0, 1/2, 1, 3/2, 2, 5/2] : List ℚ).map fun g_i =>
      sensCell fcf_next cum_pv N w g_i

/-- One optional bull/bear block of `dcf`: an explicit override is
normalized and projected; an omitted one is synthesized as
`round(ev_base * mult, 2)` with no flows entry. -/
def runScenario (name : String) (o : Option Overrides) (N : ℤ) (r ev_base mult : ℚ) :
    Option (ℚ × List (String × List CashFlowRow)) :=
  match o with
  | none => some (round2 (ev_base * mult), [])
  | some ov =>
    (project_cash_flows (scenario_defaults ov N r)).bind fun out =>
    out.1.getLast?.bind fun last =>
    some (round2 (last.cum_pv + out.2.2), [(name, out.1)])

/-- The `/dcf` endpoint (core part: everything except the best-effort
workbook export). -/
def dcf (req : DcfRequest) : Option DcfResult :=
  let r := pct req.wacc (10/100)
  let N : ℤ := max 1 req.horizon
  let sc := req.scenarios.getD { base := {} }
  let s_base := scenario_defaults sc.base N r
  (project_cash_flows s_base).bind fun baseOut =>
  baseOut.1.getLast?.bind fun lastBase =>
  let ev_base := lastBase.cum_pv + baseOut.2.2
  (runScenario "bull" sc.bull N r ev_base (12/10)).bind fun bull =>
  (runScenario "bear" sc.bear N r ev_base (8/10)).bind fun bear =>
  some
    { assumptions :=
        { ticker := req.ticker, horizon := N, wacc := round2 (r * 100)
          notes := "Fundamentals-driven DCF using simple revenue->EBIT->NOPAT and reinvestment policy." }
      pvByScenario :=
        [("base", round2 ev_base), ("bull", bull.1), ("bear", bear.1)]
      sensitivity :=
        sensitivityFor lastBase.nopat s_base.reinvestment_rate
          s_base.terminal_g lastBase.cum_pv N.toNat
      flowsBy := ("base", baseOut.1) :: bull.2 ++ bear.2 }

/-- The environment seen by the export step: the wall-clock timestamp used
to name the output directory, and the filesystem's reply to the workbook
write (the artifact path, or `none` on any failure). -/
structure Env where
  timestampMs : ℤ
  writeResult : ℤ → Option String

/-- `/dcf` including the best-effort artifact export: any export failure
is swallowed and only the `files` list is affected. -/
def dcfFull (req : DcfRequest) (env : Env) : Option (DcfResult × List String) :=
  (dcf req).map fun res =>
    (res, (env.writeResult env.timestampMs).toList)

/-- Transcribed from the spec sentence behind C1: one sensitivity cell in
which `nopat_next` and `fcf_next` are recomputed from that cell's terminal
growth rate. -/
def sensCellClaim (nopatLast reinv cum_pv : ℚ) (N : ℕ) (w g_i : ℚ) : SensPoint :=
  let g := g_i / 100
  let rr := w / 100
  let nopat_next := nopatLast * (1 + g)
  let fcf_next := nopat_next * (1 - reinv)
  let tv := fcf_next / max (1/1000000) (rr - g)
  let pv_tv := tv / (1 + rr) ^ N
  { wacc := w, terminalG := g_i, value := round2 (cum_pv + pv_tv) }

/-- Transcribed from the amended C1: the whole grid, with `nopat_next` and
`fcf_next` taken once from the base scenario's last projected NOPAT and the
base terminal growth; each cell varies only the Gordon denominator's growth
and the discount rate, and adds the tail to the base cumulative present
value. -/
def sensitivityClaimAmended (nopatLast reinv base_g cum_pv : ℚ) (N : ℕ) :
    List SensPoint :=
  ([6, 7, 8, 9, 10, 11, 12] : List ℚ).flatMap fun w =>
    ([0, 1/2, 1, 3/2, 2, 5/2] : List ℚ).map fun g_i =>
      let nopat_next := nopatLast * (1 + base_g)
      let fcf_next := nopat_next * (1 - reinv)
      let tv := fcf_next / max (1/1000000) (w / 100 - g_i / 100)
      { wacc := w, terminalG := g_i
        value := round2 (cum_pv + tv / (1 + w / 100) ^ N) }

/-- The growth sequence used by the projection: iterate `next_growth`
starting from `g0`. -/
def growthSeq (g_terminal g_decay g0 : ℚ) : ℕ → ℚ
  | 0 => g0
  | n + 1 => next_growth g_terminal g_decay (growthSeq g_terminal g_decay g0 n)

/-- Numeric side conditions under which a scenario's projection cannot
raise: the normalized discount rate is not `-1` (so the discount-factor
division has a nonzero denominator) and the effective horizon is at least
one year (so `flows[-1]` exists). -/
def scenarioOk (s : Params) : Prop :=
  1 + s.wacc ≠ 0 ∧ 1 ≤ s.horizon

instance (s : Params) : Decidable (scenarioOk s) :=
  inferInstanceAs (Decidable (_ ∧ _))

/-- An all-defaults request. -/
def reqDefault : DcfRequest :=
  { ticker := "ACME", horizon := 5, wacc := some 10
    scenarios := some { base := {} } }

/-- A one-year base scenario with unit margin, no tax, no reinvestment and
a 50% discount rate; its enterprise value is exactly `2 * revenue0`. -/
def ovSmall : Overrides :=
  { revenue0 := some (4979/10000), growth := some 0, growth_decay := some 0
    ebit_margin := some 1, tax_rate := some 0, reinvestment_rate := some 0
    terminal_g := some 0, wacc := some (1/2) }

/-- A request built on `ovSmall`, with bull and bear omitted; its base
enterprise value is `0.9958`. -/
def reqSmall : DcfRequest :=
  { ticker := "X", horizon := 1, scenarios := some { base := ovSmall } }

/-- The single cash-flow row projected for `reqSmall`. -/
def rowSmall : CashFlowRow :=
  { year := 1, revenue := 4979/10000, ebit := 4979/10000
    nopat := 4979/10000, reinvestment := 0, fcf := 4979/10000
    discountFactor := 2/3, pv_fcf := 4979/15000, cum_pv := 4979/15000 }

/-- A request whose base override carries `wacc = -1` (a finite value). -/
def reqWaccNeg1 : DcfRequest :=
  { ticker := "X", horizon := 1
    scenarios := some { base := { wacc := some (-1) } } }

/-- A request whose base override carries a scenario-level `horizon = 0`. -/
def reqHorizon0 : DcfRequest :=
  { ticker := "X", horizon := 5
    scenarios := some { base := { horizon := some 0 } } }

/-- A request with a nonpositive request-level horizon and no overrides. -/
def reqClamp : DcfRequest :=
  { ticker := "X", horizon := 0 }

/-- Default parameters over two years with `wacc = 0`. -/
def paramsWacc0 : Params :=
  scenario_defaults { wacc := some 0 } 2 (10/100)

/-- Default parameters over two years. -/
def paramsDefault2 : Params :=
  scenario_defaults {} 2 (10/100)

/-- First projected row for `paramsDefault2`. -/
def rowD1 : CashFlowRow :=
  { year := 1, revenue := 1100, ebit := 220, nopat := 869/5
    reinvestment := 6083/100, fcf := 11297/100, discountFactor := 10/11
    pv_fcf := 1027/10, cum_pv := 1027/10 }

/-- Second projected row for `paramsDefault2`. -/
def rowD2 : CashFlowRow :=
  { year := 2, revenue := 1188, ebit := 1188/5, nopat := 23463/125
    reinvestment := 164241/2500, fcf := 305019/2500, discountFactor := 100/121
    pv_fcf := 27729/275, cum_pv := 111943/550 }

/-! Helper lemmas. -/

lemma pydiv_of_ne (a b : ℚ) (h : b ≠ 0) : pydiv a b = some (a / b) := by
  simp [pydiv, h]

lemma pydiv_some (a b c : ℚ) (h : pydiv a b = some c) : b ≠ 0 ∧ c = a / b := by
  unfold pydiv at h
  split at h
  · exact absurd h (by simp)
  · exact ⟨by assumption, (Option.some.injEq _ _ ▸ h).symm⟩

lemma gordonDen_pos (r g : ℚ) : 0 < gordonDen r g :=
  lt_of_lt_of_le (by norm_num) (le_max_left _ _)

lemma gordonDen_ne_zero (r g : ℚ) : gordonDen r g ≠ 0 :=
  ne_of_gt (gordonDen_pos r g)

lemma projectLoop_out (gt gd m tax rv r : ℚ) (fuel : ℕ) :
    ∀ (t : ℕ) (rev g pv : ℚ) (rows : List CashFlowRow) (total : ℚ),
      projectLoop gt gd m tax rv r fuel t rev g pv = some (rows, total) →
      rows.length = fuel ∧
      ∀ i (hi : i < rows.length),
        (rows.get ⟨i, hi⟩).year = t + i ∧
        (rows.get ⟨i, hi⟩).discountFactor = 1 / (1 + r) ^ (t + i) := by
  induction fuel with
  | zero =>
    intro t rev g pv rows total h
    simp only [projectLoop, Option.some.injEq, Prod.mk.injEq] at h
    obtain ⟨h1, _⟩ := h
    subst h1
    exact ⟨rfl, fun i hi => absurd hi (by simp)⟩
  | succ n ih =>
    intro t rev g pv rows total h
    simp only [projectLoop, Option.bind_eq_some, Option.some.injEq,
      Prod.mk.injEq] at h
    obtain ⟨df, hdf, out, hout, hrows, _⟩ := h
    obtain ⟨hne, hdfeq⟩ := pydiv_some _ _ _ hdf
    have ihout := ih (t + 1) _ _ _ out.1 out.2 hout
    subst hrows
    refine ⟨by simpa using ihout.1, ?_⟩
    intro i hi
    match i with
    | 0 =>
      refine ⟨by simp, ?_⟩
      simpa using hdfeq
    | Nat.succ j =>
      have hj : j < out.1.length := by
        have := hi
        simp at this
        omega
      have hfact := ihout.2 j hj
      have he1 : t + 1 + j = t + (j + 1) := by omega
      constructor
      · simpa [he1] using hfact.1
      · simpa [he1] using hfact.2

lemma projectLoop_isSome (gt gd m tax rv r : ℚ) (hr : 1 + r ≠ 0) (fuel : ℕ) :
    ∀ (t : ℕ) (rev g pv : ℚ),
      (projectLoop gt gd m tax rv r fuel t rev g pv).isSome := by
  induction fuel with
  | zero => intro t rev g pv; simp [projectLoop]
  | succ n ih =>
    intro t rev g pv
    have hpow : (1 + r) ^ t ≠ 0 := pow_ne_zero _ hr
    simp only [projectLoop, pydiv, if_neg hpow, Option.some_bind]
    obtain ⟨out, hout⟩ := Option.isSome_iff_exists.mp (ih (t + 1) _ _ _)
    rw [hout]
    rfl

lemma project_isSome (s : Params) (hw : 1 + s.wacc ≠ 0) (hh : 1 ≤ s.horizon) :
    (project_cash_flows s).isSome := by
  obtain ⟨out, hout⟩ := Option.isSome_iff_exists.mp
    (projectLoop_isSome s.terminal_g s.growth_decay s.ebit_margin s.tax_rate
      s.reinvestment_rate s.wacc hw s.horizon.toNat 1 s.revenue0 s.growth 0)
  have hlen := (projectLoop_out _ _ _ _ _ _ _ _ _ _ _ out.1 out.2 hout).1
  have hne : out.1 ≠ [] := by
    intro he
    rw [he] at hlen
    simp at hlen
    omega
  obtain ⟨last, hlast⟩ := Option.isSome_iff_exists.mp
    ((List.getLast?_isSome).mpr hne)
  simp only [project_cash_flows]
  rw [hout, Option.some_bind, hlast, Option.some_bind,
    pydiv_of_ne _ _ (gordonDen_ne_zero _ _), Option.some_bind,
    pydiv_of_ne _ _ (pow_ne_zero _ hw), Option.some_bind]
  rfl

lemma project_succeeds (s : Params) (hw : 1 + s.wacc ≠ 0) (hh : 1 ≤ s.horizon) :
    ∃ flows tv pvtv, project_cash_flows s = some (flows, tv, pvtv) := by
  obtain ⟨out, hout⟩ := Option.isSome_iff_exists.mp (project_isSome s hw hh)
  exact ⟨out.1, out.2.1, out.2.2, hout⟩

lemma project_inv (s : Params) (flows : List CashFlowRow) (tv pvtv : ℚ)
    (h : project_cash_flows s = some (flows, tv, pvtv)) :
    ∃ total,
      projectLoop s.terminal_g s.growth_decay s.ebit_margin s.tax_rate
        s.reinvestment_rate s.wacc s.horizon.toNat 1 s.revenue0 s.growth 0 =
      some (flows, total) := by
  simp only [project_cash_flows, Option.bind_eq_some, Option.some.injEq,
    Prod.mk.injEq] at h
  obtain ⟨out, hout, last, hlast, tv', htv, pvtv', hpv, hf, _⟩ := h
  subst hf
  exact ⟨out.2, by rw [hout]⟩

lemma project_length (s : Params) (flows : List CashFlowRow) (tv pvtv : ℚ)
    (h : project_cash_flows s = some (flows, tv, pvtv)) :
    flows.length = s.horizon.toNat := by
  obtain ⟨total, hloop⟩ := project_inv s flows tv pvtv h
  exact (projectLoop_out _ _ _ _ _ _ _ _ _ _ _ flows total hloop).1

lemma runScenario_succeeds (name : String) (o : Option Overrides) (N : ℤ)
    (r ev_base mult : ℚ)
    (hok : ∀ ov, o = some ov → scenarioOk (scenario_defaults ov N r)) :
    ∃ out, runScenario name o N r ev_base mult = some out := by
  cases o with
  | none => exact ⟨_, rfl⟩
  | some ov =>
    obtain ⟨flows, tv, pvtv, hp⟩ :=
      project_succeeds _ (hok ov rfl).1 (hok ov rfl).2
    have hlen := project_length _ _ _ _ hp
    have hne : flows ≠ [] := by
      intro he
      rw [he] at hlen
      simp at hlen
      have := (hok ov rfl).2
      omega
    obtain ⟨last, hlast⟩ := Option.isSome_iff_exists.mp
      ((List.getLast?_isSome).mpr hne)
    refine ⟨(round2 (last.cum_pv + pvtv), [(name, flows)]), ?_⟩
    simp [runScenario, hp, hlast]

lemma dcf_inv (req : DcfRequest) (res : DcfResult) (h : dcf req = some res) :
    ∃ baseOut lastBase bull bear,
      project_cash_flows
        (scenario_defaults (req.scenarios.getD { base := {} }).base
          (max 1 req.horizon) (pct req.wacc (10/100))) = some baseOut ∧
      baseOut.1.getLast? = some lastBase ∧
      runScenario "bull" (req.scenarios.getD { base := {} }).bull
        (max 1 req.horizon) (pct req.wacc (10/100))
        (lastBase.cum_pv + baseOut.2.2) (12/10) = some bull ∧
      runScenario "bear" (req.scenarios.getD { base := {} }).bear
        (max 1 req.horizon) (pct req.wacc (10/100))
        (lastBase.cum_pv + baseOut.2.2) (8/10) = some bear ∧
      res =
        { assumptions :=
            { ticker := req.ticker, horizon := max 1 req.horizon
              wacc := round2 (pct req.wacc (10/100) * 100)
              notes := "Fundamentals-driven DCF using simple revenue->EBIT->NOPAT and reinvestment policy." }
          pvByScenario :=
            [("base", round2 (lastBase.cum_pv + baseOut.2.2)),
             ("bull", bull.1), ("bear", bear.1)]
          sensitivity :=
            sensitivityFor lastBase.nopat
              (scenario_defaults (req.scenarios.getD { base := {} }).base
                (max 1 req.horizon) (pct req.wacc (10/100))).reinvestment_rate
              (scenario_defaults (req.scenarios.getD { base := {} }).base
                (max 1 req.horizon) (pct req.wacc (10/100))).terminal_g
              lastBase.cum_pv (max 1 req.horizon).toNat
          flowsBy := ("base", baseOut.1) :: bull.2 ++ bear.2 } := by
  simp only [dcf, Option.bind_eq_some, Option.some.injEq] at h
  obtain ⟨baseOut, hb, lastBase, hl, bull, hbu, bear, hbe, hres⟩ := h
  exact ⟨baseOut, lastBase, bull, bear, hb, hl, hbu, hbe, hres.symm⟩

lemma dcf_succeeds (req : DcfRequest)
    (hbase : scenarioOk
      (scenario_defaults (req.scenarios.getD { base := {} }).base
        (max 1 req.horizon) (pct req.wacc (10/100))))
    (hbull : ∀ ov, (req.scenarios.getD { base := {} }).bull = some ov →
      scenarioOk (scenario_defaults ov (max 1 req.horizon) (pct req.wacc (10/100))))
    (hbear : ∀ ov, (req.scenarios.getD { base := {} }).bear = some ov →
      scenarioOk (scenario_defaults ov (max 1 req.horizon) (pct req.wacc (10/100)))) :
    ∃ res flows, dcf req = some res ∧
      res.assumptions.horizon = max 1 req.horizon ∧
      res.flowsBy.lookup "base" = some flows ∧
      flows.length =
        (scenario_defaults (req.scenarios.getD { base := {} }).base
          (max 1 req.horizon) (pct req.wacc (10/100))).horizon.toNat := by
  obtain ⟨flows, tv, pvtv, hp⟩ := project_succeeds _ hbase.1 hbase.2
  have hlen := project_length _ _ _ _ hp
  have hne : flows ≠ [] := by
    intro he
    rw [he] at hlen
    simp at hlen
    have := hbase.2
    omega
  obtain ⟨last, hlast⟩ := Option.isSome_iff_exists.mp
    ((List.getLast?_isSome).mpr hne)
  obtain ⟨bull, hbullEq⟩ := runScenario_succeeds "bull" _ _ _
    (last.cum_pv + pvtv) (12/10) hbull
  obtain ⟨bear, hbearEq⟩ := runScenario_succeeds "bear" _ _ _
    (last.cum_pv + pvtv) (8/10) hbear
  refine
    ⟨{ assumptions :=
         { ticker := req.ticker, horizon := max 1 req.horizon
           wacc := round2 (pct req.wacc (10/100) * 100)
           notes := "Fundamentals-driven DCF using simple revenue->EBIT->NOPAT and reinvestment policy." }
       pvByScenario :=
         [("base", round2 (last.cum_pv + pvtv)),
          ("bull", bull.1), ("bear", bear.1)]
       sensitivity :=
         sensitivityFor last.nopat
           (scenario_defaults (req.scenarios.getD { base := {} }).base
             (max 1 req.horizon) (pct req.wacc (10/100))).reinvestment_rate
           (scenario_defaults (req.scenarios.getD { base := {} }).base
             (max 1 req.horizon) (pct req.wacc (10/100))).terminal_g
           last.cum_pv (max 1 req.horizon).toNat
       flowsBy := ("base", flows) :: bull.2 ++ bear.2 },
      flows, ?_, rfl, ?_, hlen⟩
  · simp [dcf, hp, hlast, hbullEq, hbearEq]
  · simp [List.lookup]

lemma round2_eq_low (x : ℚ) (f : ℤ) (h1 : (f:ℚ) ≤ 100 * x)
    (h2 : 100 * x - f < 1/2) : round2 x = (f:ℚ) / 100 := by
  have hf : ⌊(100 * x : ℚ)⌋ = f := by
    rw [Int.floor_eq_iff]
    exact ⟨h1, by linarith⟩
  simp only [round2, roundHalfEven, hf]
  rw [if_pos h2]

lemma round2_eq_high (x : ℚ) (f : ℤ) (h1 : (f:ℚ) ≤ 100 * x)
    (h2 : 1/2 < 100 * x - f) (h3 : 100 * x < (f:ℚ) + 1) :
    round2 x = ((f:ℚ) + 1) / 100 := by
  have hf : ⌊(100 * x : ℚ)⌋ = f := by
    rw [Int.floor_eq_iff]
    exact ⟨h1, by linarith⟩
  simp only [round2, roundHalfEven, hf]
  rw [if_neg (by linarith), if_pos h2]
  push_cast
  ring

lemma sensitivityFor_eq_claim (a b c d : ℚ) (N : ℕ) :
    sensitivityFor a b c d N = sensitivityClaimAmended a b c d N := rfl

lemma sensitivityFor_length (a b c d : ℚ) (N : ℕ) :
    (sensitivityFor a b c d N).length = 42 := rfl

lemma dcf_proj (req : DcfRequest) (flows : List CashFlowRow) (tv pvtv : ℚ)
    (last : CashFlowRow) (bull bear : ℚ × List (String × List CashFlowRow))
    (hp : project_cash_flows
      (scenario_defaults (req.scenarios.getD { base := {} }).base
        (max 1 req.horizon) (pct req.wacc (10/100))) = some (flows, tv, pvtv))
    (hl : flows.getLast? = some last)
    (hbull : runScenario "bull" (req.scenarios.getD { base := {} }).bull
      (max 1 req.horizon) (pct req.wacc (10/100))
      (last.cum_pv + pvtv) (12/10) = some bull)
    (hbear : runScenario "bear" (req.scenarios.getD { base := {} }).bear
      (max 1 req.horizon) (pct req.wacc (10/100))
      (last.cum_pv + pvtv) (8/10) = some bear) :
    ((dcf req).map fun res => res.pvByScenario) =
      some [("base", round2 (last.cum_pv + pvtv)),
            ("bull", bull.1), ("bear", bear.1)] ∧
    ((dcf req).map fun res => res.sensitivity) =
      some (sensitivityFor last.nopat
        (scenario_defaults (req.scenarios.getD { base := {} }).base
          (max 1 req.horizon) (pct req.wacc (10/100))).reinvestment_rate
        (scenario_defaults (req.scenarios.getD { base := {} }).base
          (max 1 req.horizon) (pct req.wacc (10/100))).terminal_g
        last.cum_pv (max 1 req.horizon).toNat) ∧
    ((dcf req).map fun res => res.flowsBy) =
      some (("base", flows) :: bull.2 ++ bear.2) := by
  refine ⟨?_, ?_, ?_⟩ <;> simp [dcf, hp, hl, hbull, hbear]

lemma reqSmall_project :
    project_cash_flows
      (scenario_defaults (reqSmall.scenarios.getD { base := {} }).base
        (max 1 reqSmall.horizon) (pct reqSmall.wacc (10/100))) =
    some ([rowSmall], 4979/5000, 4979/7500) := by
  norm_num [reqSmall, ovSmall, project_cash_flows, projectLoop,
    scenario_defaults, pct, pydiv, next_growth, gordonDen, max_def, rowSmall,
    show ((1:ℤ)).toNat = 1 from rfl]

lemma reqSmall_bull :
    runScenario "bull" (reqSmall.scenarios.getD { base := {} }).bull
      (max 1 reqSmall.horizon) (pct reqSmall.wacc (10/100))
      (rowSmall.cum_pv + 4979/7500) (12/10) =
    some (round2 ((rowSmall.cum_pv + 4979/7500) * (12/10)), []) := rfl

lemma reqSmall_bear :
    runScenario "bear" (reqSmall.scenarios.getD { base := {} }).bear
      (max 1 reqSmall.horizon) (pct reqSmall.wacc (10/100))
      (rowSmall.cum_pv + 4979/7500) (8/10) =
    some (round2 ((rowSmall.cum_pv + 4979/7500) * (8/10)), []) := rfl

lemma reqSmall_dcf_isSome : (dcf reqSmall).isSome := by
  obtain ⟨res, _, hd, _⟩ := dcf_succeeds reqSmall
    (by norm_num [scenarioOk, reqSmall, ovSmall, scenario_defaults, pct])
    (by intro ov h; simp [reqSmall] at h)
    (by intro ov h; simp [reqSmall] at h)
  exact Option.isSome_iff_exists.mpr ⟨res, hd⟩

lemma next_growth_above (gt d c : ℚ) (hd : 0 ≤ d) (hc : gt ≤ c) :
    gt ≤ next_growth gt d c ∧ next_growth gt d c ≤ c := by
  unfold next_growth
  split
  · exact ⟨le_max_left _ _, max_le hc (by linarith)⟩
  · have hcgt : c = gt := le_antisymm (not_lt.mp (by assumption)) hc
    subst hcgt
    rw [min_eq_left (by linarith)]
    exact ⟨le_refl _, le_refl _⟩

lemma next_growth_below (gt d c : ℚ) (hd : 0 ≤ d) (hc : c ≤ gt) :
    c ≤ next_growth gt d c ∧ next_growth gt d c ≤ gt := by
  unfold next_growth
  split
  · exact absurd hc (not_le.mpr (by assumption))
  · exact ⟨le_min hc (by linarith), min_le_left _ _⟩

/-! Claim theorems. -/

/-- Claim C4 (corrected): with a negative `growth_decay` — which the
normalizer accepts — `next_growth` moves a growth already equal to
`terminal_g` away from it, refuting "leaves it unchanged once equal" and
monotone movement toward `terminal_g`. -/
theorem C4_counterexample :
    next_growth (2/100) (-(1/100)) (2/100) = 1/100 ∧
    ((1:ℚ)/100) ≠ 2/100 ∧
    ¬ (|next_growth (2/100) (-(1/100)) (2/100) - 2/100| ≤ |(2:ℚ)/100 - 2/100|) := by
  refine ⟨by norm_num [next_growth], by norm_num, ?_⟩
  norm_num [next_growth]

/-- Claim C4 (amended): for a nonnegative `growth_decay`, the growth
sequence obtained by iterating `next_growth` over the horizon steps is
monotone toward `terminal_g`, never overshoots past it, and is unchanged
once equal. -/
theorem C4_amended (g_terminal g_decay g0 : ℚ) (hd : 0 ≤ g_decay) :
    (g_terminal ≤ g0 →
      ∀ n, g_terminal ≤ growthSeq g_terminal g_decay g0 n ∧
        growthSeq g_terminal g_decay g0 (n + 1) ≤ growthSeq g_terminal g_decay g0 n) ∧
    (g0 ≤ g_terminal →
      ∀ n, growthSeq g_terminal g_decay g0 n ≤ g_terminal ∧
        growthSeq g_terminal g_decay g0 n ≤ growthSeq g_terminal g_decay g0 (n + 1)) ∧
    next_growth g_terminal g_decay g_terminal = g_terminal := by
  refine ⟨?_, ?_, ?_⟩
  · intro h0
    have inv : ∀ n, g_terminal ≤ growthSeq g_terminal g_decay g0 n := by
      intro n
      induction n with
      | zero => exact h0
      | succ k ihk => exact (next_growth_above _ _ _ hd ihk).1
    exact fun n => ⟨inv n, (next_growth_above _ _ _ hd (inv n)).2⟩
  · intro h0
    have inv : ∀ n, growthSeq g_terminal g_decay g0 n ≤ g_terminal := by
      intro n
      induction n with
      | zero => exact h0
      | succ k ihk => exact (next_growth_below _ _ _ hd ihk).2
    exact fun n => ⟨inv n, (next_growth_below _ _ _ hd (inv n)).1⟩
  · exact le_antisymm (next_growth_above _ _ _ hd (le_refl _)).2
      (next_growth_above _ _ _ hd (le_refl _)).1

/-- Witness for C4: the default starting growth 10% decaying by 2% toward
2% moves downward between steps 1 and 2. -/
theorem C4_witness :
    growthSeq (2/100) (2/100) (10/100) 2 ≤ growthSeq (2/100) (2/100) (10/100) 1 :=
  ((C4_amended (2/100) (2/100) (10/100) (by norm_num)).1 (by norm_num) 1).2

/-- Claim C5 (confirmed): whenever `wacc - terminal_g ≤ 1e-6` (including
equality and sign flip), the Gordon denominator is floored at `1e-6` in the
main terminal-value calculation and in any sensitivity cell, the division
does not raise, and the terminal value is the finite `fcf_next * 1e6`. -/
theorem C5_theorem (r g fcf cum_pv : ℚ) (N : ℕ) (w g_i : ℚ)
    (h : r - g ≤ 1/1000000) (hcell : w/100 - g_i/100 ≤ 1/1000000) :
    gordonDen r g = 1/1000000 ∧
    pydiv fcf (gordonDen r g) = some (fcf * 1000000) ∧
    sensCell fcf cum_pv N w g_i =
      { wacc := w, terminalG := g_i
        value := round2 (cum_pv + fcf * 1000000 / (1 + w/100) ^ N) } := by
  have hd : gordonDen r g = 1/1000000 := max_eq_left h
  have hdc : gordonDen (w/100) (g_i/100) = 1/1000000 := max_eq_left hcell
  refine ⟨hd, ?_, ?_⟩
  · rw [hd, pydiv_of_ne _ _ (by norm_num)]
    rw [div_div_eq_mul_div, div_one]
  · simp only [sensCell, hdc]
    rw [div_div_eq_mul_div, div_one]

/-- Witness for C5: the degenerate cell `wacc = terminal_g = 2%`. -/
theorem C5_witness :
    gordonDen (2/100) (2/100) = 1/1000000 ∧
    pydiv 1 (gordonDen (2/100) (2/100)) = some (1 * 1000000) ∧
    sensCell 1 0 1 2 2 =
      { wacc := 2, terminalG := 2
        value := round2 (0 + 1 * 1000000 / (1 + 2/100) ^ 1) } :=
  C5_theorem (2/100) (2/100) 1 0 1 2 2 (by norm_num) (by norm_num)

/-- Claim C8 (corrected): rates whose decimal form is at most `1/100` (or
above 1) break the percent/decimal agreement — a rate of 0.5% supplied as
`0.5` normalizes to `0.5` while supplied as `0.005` it stays `0.005`. -/
theorem C8_counterexample :
    pct (some (1/2)) (10/100) = 1/2 ∧
    pct (some (5/1000)) (10/100) = 5/1000 ∧
    ((1:ℚ)/2) ≠ 5/1000 := by
  refine ⟨?_, ?_, by norm_num⟩
  · norm_num [pct]
  · norm_num [pct]

/-- Claim C8 (amended): `pct` divides a supplied value by 100 exactly when
it exceeds 1 and keeps values at most 1; consequently the percent form and
the decimal form of the same rate normalize identically for rates whose
decimal form lies in `(1/100, 1]`. -/
theorem C8_amended :
    (∀ x d : ℚ, pct (some x) d = if 1 < x then x / 100 else x) ∧
    (∀ rate d : ℚ, 1/100 < rate → rate ≤ 1 →
      pct (some (100 * rate)) d = pct (some rate) d) := by
  constructor
  · intro x d
    rfl
  · intro rate d h1 h2
    have hgt : (1:ℚ) < 100 * rate := by linarith
    have hle : ¬ (1:ℚ) < rate := not_lt.mpr h2
    simp only [pct, if_pos hgt, if_neg hle]
    ring

/-- Witness for C8: the rate 10% supplied as `10` and as `0.10`. -/
theorem C8_witness :
    pct (some (100 * (1/10))) (21/100) = pct (some (1/10)) (21/100) :=
  C8_amended.2 (1/10) (21/100) (by norm_num) (by norm_num)

/-- Claim C6 (corrected): with `wacc = 0` — which is greater than -1 —
both discount factors of a two-year projection equal 1, so the discount
factors are not strictly decreasing for every `wacc > -1`. -/
theorem C6_counterexample :
    ((-1:ℚ) < paramsWacc0.wacc) ∧
    (project_cash_flows paramsWacc0).map
      (fun out => out.1.map CashFlowRow.discountFactor) = some [1, 1] ∧
    ¬ ((1:ℚ) < 1) := by
  refine ⟨?_, ?_, by norm_num⟩
  · norm_num [paramsWacc0, scenario_defaults, pct]
  · norm_num [paramsWacc0, project_cash_flows, projectLoop, scenario_defaults,
      pct, pydiv, next_growth, gordonDen, max_def]

/-- Claim C6 (amended): in every projected sequence, `discountFactor` at
year t equals `(1+wacc) ^ (-t)`; the factors are strictly positive for
`wacc > -1` and strictly decreasing in year for `wacc > 0`. -/
theorem C6_amended (s : Params) (flows : List CashFlowRow) (tv pvtv : ℚ)
    (h : project_cash_flows s = some (flows, tv, pvtv)) :
    (∀ row ∈ flows, 1 ≤ row.year ∧
      row.discountFactor = (1 + s.wacc) ^ (-(row.year : ℤ))) ∧
    (-1 < s.wacc → ∀ row ∈ flows, 0 < row.discountFactor) ∧
    (0 < s.wacc →
      flows.Chain' fun a b => b.discountFactor < a.discountFactor) := by
  obtain ⟨total, hloop⟩ := project_inv s flows tv pvtv h
  have hfacts := projectLoop_out _ _ _ _ _ _ _ _ _ _ _ flows total hloop
  have hdf : ∀ i (hi : i < flows.length),
      (flows.get ⟨i, hi⟩).discountFactor = 1 / (1 + s.wacc) ^ (1 + i) :=
    fun i hi => (hfacts.2 i hi).2
  have hyear : ∀ i (hi : i < flows.length), (flows.get ⟨i, hi⟩).year = 1 + i :=
    fun i hi => (hfacts.2 i hi).1
  refine ⟨?_, ?_, ?_⟩
  · intro row hrow
    obtain ⟨⟨i, hi⟩, hget⟩ := List.mem_iff_get.mp hrow
    subst hget
    refine ⟨by rw [hyear i hi]; omega, ?_⟩
    rw [hdf i hi, hyear i hi]
    rw [zpow_neg, zpow_natCast, one_div]
  · intro hw row hrow
    obtain ⟨⟨i, hi⟩, hget⟩ := List.mem_iff_get.mp hrow
    subst hget
    rw [hdf i hi]
    have hb : (0:ℚ) < 1 + s.wacc := by linarith
    exact div_pos one_pos (pow_pos hb _)
  · intro hw
    rw [List.chain'_iff_get]
    intro i hi
    have h1 := hdf i (by omega)
    have h2 := hdf (i + 1) (by omega)
    have hb : (1:ℚ) < 1 + s.wacc := by linarith
    have hp1 : (0:ℚ) < (1 + s.wacc) ^ (1 + i) := pow_pos (by linarith) _
    have key : (flows.get ⟨i + 1, by omega⟩).discountFactor <
        (flows.get ⟨i, by omega⟩).discountFactor := by
      rw [h1, h2]
      exact one_div_lt_one_div_of_lt hp1 (pow_lt_pow_right₀ hb (by omega))
    exact key

/-- Witness for C6: the default two-year projection at `wacc = 10%` has
strictly decreasing discount factors. -/
theorem C6_witness :
    List.Chain' (fun a b => b.discountFactor < a.discountFactor)
      [rowD1, rowD2] :=
  (C6_amended paramsDefault2 [rowD1, rowD2] (15555969/10000) (1414179/1100)
    (by norm_num [paramsDefault2, project_cash_flows, projectLoop,
      scenario_defaults, pct, pydiv, next_growth, gordonDen, max_def,
      show ((2:ℤ)).toNat = 2 from rfl, rowD1, rowD2])).2.2
    (by norm_num [paramsDefault2, scenario_defaults, pct])

/-- Claim C9 (confirmed): the core output — assumptions, pvByScenario,
sensitivity and the per-scenario flow tables — is a deterministic function
of the request alone; the export environment (wall clock, filesystem) can
only influence the `files` list. -/
theorem C9_theorem :
    ∀ (req : DcfRequest) (e1 e2 : Env),
      (dcfFull req e1).map Prod.fst = (dcfFull req e2).map Prod.fst := by
  intro req e1 e2
  cases h : dcf req <;> simp [dcfFull, h]

/-- Claim C1 (corrected): the code computes `fcf_next` once from the base
scenario's terminal growth, not per cell.  At `reqSmall` (base terminal
growth 0) the grid cell for wacc 6%, terminal growth 0.5% has value 8.87,
while the claim's per-cell recomputation gives 8.91. -/
theorem C1_counterexample :
    ((dcf reqSmall).map fun res => res.sensitivity) =
      some (sensitivityFor (4979/10000) 0 0 (4979/15000) 1) ∧
    ((sensitivityFor (4979/10000) 0 0 (4979/15000) 1).map
      SensPoint.value)[1]? = some (887/100) ∧
    (sensCellClaim (4979/10000) 0 (4979/15000) 1 6 (1/2)).value = 891/100 ∧
    ((887:ℚ)/100) ≠ 891/100 := by
  have hgrid := (dcf_proj reqSmall [rowSmall] (4979/5000) (4979/7500) rowSmall
    _ _ reqSmall_project rfl reqSmall_bull reqSmall_bear).2.1
  refine ⟨?_, ?_, ?_, by norm_num⟩
  · rw [hgrid]
    norm_num [rowSmall, reqSmall, scenario_defaults, ovSmall, pct,
      show ((1:ℤ)).toNat = 1 from rfl]
  · have hv : (sensCell (4979/10000) (4979/15000) 1 6 (1/2)).value = 887/100 := by
      simp only [sensCell, gordonDen]
      rw [round2_eq_low _ 887 (by norm_num [max_def]) (by norm_num [max_def])]
      norm_num
    norm_num [sensitivityFor, hv]
  · simp only [sensCellClaim]
    rw [round2_eq_low _ 891 (by norm_num [max_def]) (by norm_num [max_def])]
    norm_num

/-- Claim C1 (amended): for every request, each of the 42 sensitivity-grid
cells discounts, at that cell's wacc over horizon years, a Gordon terminal
value whose `nopat_next`/`fcf_next` are computed once from the base
scenario's terminal growth rate (not the cell's), and adds it to the base
scenario's final cumulative present value; the projected-period cash flows
are not re-run per cell. -/
theorem C1_amended (req : DcfRequest) (res : DcfResult)
    (flows : List CashFlowRow) (tv pvtv : ℚ) (last : CashFlowRow)
    (h : dcf req = some res)
    (hp : project_cash_flows
      (scenario_defaults (req.scenarios.getD { base := {} }).base
        (max 1 req.horizon) (pct req.wacc (10/100))) = some (flows, tv, pvtv))
    (hl : flows.getLast? = some last) :
    res.sensitivity =
      sensitivityClaimAmended last.nopat
        (scenario_defaults (req.scenarios.getD { base := {} }).base
          (max 1 req.horizon) (pct req.wacc (10/100))).reinvestment_rate
        (scenario_defaults (req.scenarios.getD { base := {} }).base
          (max 1 req.horizon) (pct req.wacc (10/100))).terminal_g
        last.cum_pv (max 1 req.horizon).toNat ∧
    res.sensitivity.length = 42 := by
  obtain ⟨baseOut, lastBase, bull, bear, hb, hlb, hbu, hbe, hres⟩ :=
    dcf_inv req res h
  have hbo : baseOut = (flows, tv, pvtv) := Option.some.inj (hb.symm.trans hp)
  subst hbo
  have hlb' : flows.getLast? = some lastBase := hlb
  have hlast : lastBase = last := Option.some.inj (hlb'.symm.trans hl)
  subst hlast
  rw [hres]
  exact ⟨sensitivityFor_eq_claim _ _ _ _ _, sensitivityFor_length _ _ _ _ _⟩

/-- Witness for C1: the amended grid relation instantiated at `reqSmall`. -/
theorem C1_witness :
    ((dcf reqSmall).map fun res => res.sensitivity) =
      some (sensitivityClaimAmended (4979/10000) 0 0 (4979/15000) 1) := by
  cases hq : dcf reqSmall with
  | none =>
    have hs := reqSmall_dcf_isSome
    rw [hq] at hs
    simp at hs
  | some res =>
    have h1 := C1_amended reqSmall res [rowSmall] (4979/5000) (4979/7500)
      rowSmall hq reqSmall_project rfl
    simp only [Option.map_some']
    rw [h1.1]
    norm_num [rowSmall, reqSmall, ovSmall, scenario_defaults, pct,
      show ((1:ℤ)).toNat = 1 from rfl]

/-- Claim C2 (corrected): a finite input can still raise — `wacc = -1`
in the base override makes the discount-factor division divide by zero,
so the request fails rather than returning a result. -/
theorem C2_counterexample : dcf reqWaccNeg1 = none := by
  norm_num [dcf, reqWaccNeg1, project_cash_flows, projectLoop,
    scenario_defaults, pct, pydiv, show ((1:ℤ)).toNat = 1 from rfl]

/-- Claim C2 (amended): the valuation raises no exception and returns a
result for every request in which each scenario actually projected has a
normalized wacc different from -1 and an effective horizon of at least 1;
all remaining numeric edge cases are handled by clamping or flooring. -/
theorem C2_amended (req : DcfRequest)
    (hbase : scenarioOk
      (scenario_defaults (req.scenarios.getD { base := {} }).base
        (max 1 req.horizon) (pct req.wacc (10/100))))
    (hbull : ∀ ov, (req.scenarios.getD { base := {} }).bull = some ov →
      scenarioOk (scenario_defaults ov (max 1 req.horizon) (pct req.wacc (10/100))))
    (hbear : ∀ ov, (req.scenarios.getD { base := {} }).bear = some ov →
      scenarioOk (scenario_defaults ov (max 1 req.horizon) (pct req.wacc (10/100)))) :
    ∃ res, dcf req = some res := by
  obtain ⟨res, _, hd, _⟩ := dcf_succeeds req hbase hbull hbear
  exact ⟨res, hd⟩

/-- Witness for C2: the all-defaults request completes. -/
theorem C2_witness : ∃ res, dcf reqDefault = some res :=
  C2_amended reqDefault
    (by norm_num [scenarioOk, reqDefault, scenario_defaults, pct])
    (by intro ov h; simp [reqDefault] at h)
    (by intro ov h; simp [reqDefault] at h)

/-- Claim C3 (corrected): at `reqSmall` the base enterprise value is
0.9958, rounded to 1.00; the returned bull value is
`round2(1.2 * 0.9958) = 1.19`, while the claim's
`round2(1.2 * pvByScenario["base"]) = round2(1.2 * 1.00) = 1.20`. -/
theorem C3_counterexample :
    ((dcf reqSmall).map fun res => res.pvByScenario) =
      some [("base", 1), ("bull", 119/100), ("bear", 4/5)] ∧
    round2 ((12/10) * 1) = 6/5 ∧
    ((119:ℚ)/100) ≠ 6/5 := by
  have hpv := (dcf_proj reqSmall [rowSmall] (4979/5000) (4979/7500) rowSmall
    _ _ reqSmall_project rfl reqSmall_bull reqSmall_bear).1
  refine ⟨?_, ?_, by norm_num⟩
  · rw [hpv]
    have e1 : round2 (rowSmall.cum_pv + 4979/7500) = 1 := by
      rw [round2_eq_high _ 99 (by norm_num [rowSmall]) (by norm_num [rowSmall])
        (by norm_num [rowSmall])]
      norm_num
    have e2 : round2 ((rowSmall.cum_pv + 4979/7500) * (12/10)) = 119/100 := by
      rw [round2_eq_low _ 119 (by norm_num [rowSmall]) (by norm_num [rowSmall])]
      norm_num
    have e3 : round2 ((rowSmall.cum_pv + 4979/7500) * (8/10)) = 4/5 := by
      rw [round2_eq_high _ 79 (by norm_num [rowSmall]) (by norm_num [rowSmall])
        (by norm_num [rowSmall])]
      norm_num
    rw [e1, e2, e3]
  · rw [round2_eq_low _ 120 (by norm_num) (by norm_num)]
    norm_num

/-- Claim C3 (amended): when the bull and bear overrides are omitted, the
returned values are `round2(1.2 * ev_base)` and `round2(0.8 * ev_base)`
computed from the unrounded base enterprise value (the base entry itself
being `round2(ev_base)`), and no projection is run for bull or bear. -/
theorem C3_amended (req : DcfRequest) (res : DcfResult)
    (flows : List CashFlowRow) (tv pvtv : ℚ) (last : CashFlowRow)
    (hbull : (req.scenarios.getD { base := {} }).bull = none)
    (hbear : (req.scenarios.getD { base := {} }).bear = none)
    (h : dcf req = some res)
    (hp : project_cash_flows
      (scenario_defaults (req.scenarios.getD { base := {} }).base
        (max 1 req.horizon) (pct req.wacc (10/100))) = some (flows, tv, pvtv))
    (hl : flows.getLast? = some last) :
    res.pvByScenario =
      [("base", round2 (last.cum_pv + pvtv)),
       ("bull", round2 ((last.cum_pv + pvtv) * (12/10))),
       ("bear", round2 ((last.cum_pv + pvtv) * (8/10)))] ∧
    res.flowsBy = [("base", flows)] := by
  obtain ⟨baseOut, lastBase, bull, bear, hb, hlb, hbu, hbe, hres⟩ :=
    dcf_inv req res h
  have hbo : baseOut = (flows, tv, pvtv) := Option.some.inj (hb.symm.trans hp)
  subst hbo
  have hlb' : flows.getLast? = some lastBase := hlb
  have hlast : lastBase = last := Option.some.inj (hlb'.symm.trans hl)
  subst hlast
  rw [hbull] at hbu
  rw [hbear] at hbe
  simp only [runScenario] at hbu hbe
  obtain rfl := Option.some.inj hbu
  obtain rfl := Option.some.inj hbe
  rw [hres]
  exact ⟨rfl, rfl⟩

/-- Witness for C3: the amended relation instantiated at `reqSmall`. -/
theorem C3_witness :
    ((dcf reqSmall).map fun res => res.pvByScenario) =
      some [("base", round2 ((4979:ℚ)/5000)),
            ("bull", round2 ((4979/5000) * (12/10))),
            ("bear", round2 ((4979/5000) * (8/10)))] ∧
    ((dcf reqSmall).map fun res => res.flowsBy) = some [("base", [rowSmall])] := by
  cases hq : dcf reqSmall with
  | none =>
    have hs := reqSmall_dcf_isSome
    rw [hq] at hs
    simp at hs
  | some res =>
    have h1 := C3_amended reqSmall res [rowSmall] (4979/5000) (4979/7500)
      rowSmall rfl rfl hq reqSmall_project rfl
    constructor
    · simp only [Option.map_some']
      rw [h1.1]
      norm_num [rowSmall]
    · simp only [Option.map_some']
      rw [h1.2]

/-- Claim C7 (corrected): only the request-level horizon is clamped; a
scenario-level horizon override of 0 is used as-is, the projection yields
no rows, `flows[-1]` raises, and the request fails instead of completing. -/
theorem C7_counterexample : dcf reqHorizon0 = none := by
  norm_num [dcf, reqHorizon0, project_cash_flows, projectLoop,
    scenario_defaults, pct, pydiv, show ((0:ℤ)).toNat = 0 from rfl]

/-- Claim C7 (amended): a request-level horizon of at most 0 is clamped to
1 and — when the overrides carry no scenario-level horizon and the
discount rates are not -1 — the request completes normally with effective
horizon 1. -/
theorem C7_amended (req : DcfRequest) (h0 : req.horizon ≤ 0)
    (hbh : (req.scenarios.getD { base := {} }).base.horizon = none)
    (hw : 1 + (scenario_defaults (req.scenarios.getD { base := {} }).base
      (max 1 req.horizon) (pct req.wacc (10/100))).wacc ≠ 0)
    (hbull : ∀ ov, (req.scenarios.getD { base := {} }).bull = some ov →
      scenarioOk (scenario_defaults ov (max 1 req.horizon) (pct req.wacc (10/100))))
    (hbear : ∀ ov, (req.scenarios.getD { base := {} }).bear = some ov →
      scenarioOk (scenario_defaults ov (max 1 req.horizon) (pct req.wacc (10/100)))) :
    ∃ res flows, dcf req = some res ∧
      res.assumptions.horizon = 1 ∧
      res.flowsBy.lookup "base" = some flows ∧
      flows.length = 1 := by
  have hN : max 1 req.horizon = 1 := max_eq_left (by omega)
  have hbase : scenarioOk
      (scenario_defaults (req.scenarios.getD { base := {} }).base
        (max 1 req.horizon) (pct req.wacc (10/100))) := by
    refine ⟨hw, ?_⟩
    simp [scenario_defaults, hbh, hN]
  obtain ⟨res, flows, hd, hh, hlk, hlen⟩ := dcf_succeeds req hbase hbull hbear
  refine ⟨res, flows, hd, by rw [hh, hN], hlk, ?_⟩
  rw [hlen]
  simp [scenario_defaults, hbh, hN]

/-- Witness for C7: a request with horizon 0 and no overrides completes
with effective horizon 1. -/
theorem C7_witness :
    ∃ res flows, dcf reqClamp = some res ∧
      res.assumptions.horizon = 1 ∧
      res.flowsBy.lookup "base" = some flows ∧
      flows.length = 1 :=
  C7_amended reqClamp (by norm_num [reqClamp]) (by simp [reqClamp])
    (by norm_num [reqClamp, scenario_defaults, pct])
    (by intro ov h; simp [reqClamp] at h)
    (by intro ov h; simp [reqClamp] at h)

/-- Claim C10 (confirmed): every successful valuation returns pvByScenario
with exactly the keys base, bull and bear, in that order. -/
theorem C10_theorem (req : DcfRequest) (res : DcfResult)
    (h : dcf req = some res) :
    res.pvByScenario.map Prod.fst = ["base", "bull", "bear"] := by
  obtain ⟨baseOut, lastBase, bull, bear, _, _, _, _, hres⟩ := dcf_inv req res h
  rw [hres]
  rfl

/-- Witness for C10: the keys at `reqSmall`. -/
theorem C10_witness :
    ((dcf reqSmall).map fun res => res.pvByScenario.map Prod.fst) =
      some ["base", "bull", "bear"] := by
  cases hq : dcf reqSmall with
  | none =>
    have hs := reqSmall_dcf_isSome
    rw [hq] at hs
    simp at hs
  | some res =>
    simp only [Option.map_some']
    rw [C10_theorem reqSmall res hq]

end DCF
